import Mathlib

/-!
Verification of the gswitch git-profile switcher.

Shallow embedding of the source files `src/dotfile.rs`, `src/git.rs`,
`src/config.rs` and the command dispatch in `src/main.rs`.

Filesystem paths are modelled as lists of components from the filesystem
root (so `PathBuf::pop` is `List.dropLast`, and "ancestor-or-self" is
`List.IsPrefix`).  The external collaborators (the filesystem, the git
subprocess) are modelled as function-valued parameters: `Fs.pathExists`
is `Path::exists`, `Fs.gitRoot` is `git rev-parse --show-toplevel`
(`get_git_repo_info`: `none` means "not inside a repository"), and
`Fs.content` is `std::fs::read_to_string` (`none` means the read failed).
-/

namespace GSwitch

/-- A filesystem path: the list of components below the filesystem root. -/
abbrev Path := List String

/-- `DOTFILE_NAME` from `src/dotfile.rs`. -/
def dotfileName : String := ".gswitch"

/-- Rust `str::trim`: drop whitespace characters from both ends. -/
def rustTrim (s : String) : String :=
  String.mk (((s.data.dropWhile Char.isWhitespace).reverse.dropWhile
    Char.isWhitespace).reverse)

/-- The external world seen by `src/dotfile.rs`: file existence, the git
repository root reported for a directory (`get_git_repo_info` in
`src/git.rs`; `none` = not inside a repository), and file contents. -/
structure Fs where
  pathExists : Path → Bool
  gitRoot : Path → Option Path
  content : Path → Option String

/-- The upward-walk loop of `find_dotfile_in_dir` (`src/dotfile.rs`
lines 29-39).  The loop checks the current directory for the marker,
stops when the current directory is the git root or has no parent, and
otherwise pops one component.  `fuel` makes the recursion structural;
the caller passes `search_dir.length + 1`, which the loop never
exhausts because each iteration shortens the path. -/
def findDotfileWalk (ex : Path → Bool) (git_root : Path) :
    Nat → Path → Option Path
  | 0, _ => none
  | fuel + 1, search_dir =>
    if ex (search_dir ++ [dotfileName]) then some (search_dir ++ [dotfileName])
    else if search_dir = git_root ∨ search_dir = [] then none
    else findDotfileWalk ex git_root fuel search_dir.dropLast

/-- `find_dotfile_in_dir` from `src/dotfile.rs`: fast path honouring a
marker in the start directory only when inside a repository, then the
bounded upward walk within the repository. -/
def find_dotfile_in_dir (fs : Fs) (current_dir : Path) : Option Path :=
  let dotfile_path := current_dir ++ [dotfileName]
  if fs.pathExists dotfile_path && (fs.gitRoot current_dir).isSome then
    some dotfile_path
  else
    match fs.gitRoot current_dir with
    | none => none
    | some git_root =>
      findDotfileWalk fs.pathExists git_root (current_dir.length + 1) current_dir

/-- Rust `Result`, with decidable equality. -/
inductive Res (ε : Type) (α : Type) where
  | ok (val : α) : Res ε α
  | error (err : ε) : Res ε α
deriving DecidableEq

/-- `Result::ok(self) -> Option` from Rust. -/
def Res.toOption {ε α : Type} : Res ε α → Option α
  | Res.ok v => some v
  | Res.error _ => none

/-- Errors of `read_profile_from_dotfile`: the read itself failed
(`Failed to read .gswitch file`), or the trimmed content was empty
(`.gswitch file is empty`, the spec's `MarkerEmpty`). -/
inductive DotfileError where
  | readFailed : DotfileError
  | markerEmpty : DotfileError
deriving DecidableEq

/-- `read_profile_from_dotfile` from `src/dotfile.rs`: trim the file
content and fail when the trimmed result is empty.  The argument is the
outcome of `std::fs::read_to_string` on the marker path. -/
def read_profile_from_dotfile (content : Option String) : Res DotfileError String :=
  match content with
  | none => Res.error DotfileError.readFailed
  | some c =>
    let profile_name := rustTrim c
    if profile_name = "" then Res.error DotfileError.markerEmpty
    else Res.ok profile_name

/-- `get_dotfile_profile_in_dir` from `src/dotfile.rs`: find the marker,
then read it, converting a read failure into `None` via `.ok()`. -/
def get_dotfile_profile_in_dir (fs : Fs) (start_dir : Path) : Option String :=
  (find_dotfile_in_dir fs start_dir).bind fun dotfile_path =>
    (read_profile_from_dotfile (fs.content dotfile_path)).toOption

/-- `GitProfile` from `src/config.rs`. -/
structure GitProfile where
  name : String
  email : String
  signing_key : Option String
deriving DecidableEq

/-- One invocation `git config <scope> <key> <value>` issued by
`set_git_config_in_dir` (`src/git.rs`).  `scope` is the literal flag
string `"--global"` or `"--local"`. -/
structure GitWrite where
  scope : String
  key : String
  value : String
deriving DecidableEq

/-- Outcome of one external `git config` set-invocation, as observed by
the source through `Command::output()`: the process ran and exited zero,
ran and exited non-zero with some stderr text, or could not be spawned
(`.context("Failed to execute ...")`). -/
inductive ExecResult where
  | ok : ExecResult
  | fail (stderr : String) : ExecResult
  | execError : ExecResult
deriving DecidableEq

/-- The oracle for the external git collaborator's exit behaviour on a
set-invocation. -/
abbrev ExecOracle := GitWrite → ExecResult

/-- Errors produced by `set_git_config_in_dir`: `bail!("Failed to set
git <field>: <stderr>")`, or the spawn-failure context error. -/
inductive GitError where
  | writeFailed (field : String) (stderr : String) : GitError
  | execFailed (field : String) : GitError
deriving DecidableEq

/-- `Result<()>` of `set_git_config_in_dir`. -/
inductive ApplyOutcome where
  | ok : ApplyOutcome
  | error (e : GitError) : ApplyOutcome
deriving DecidableEq

/-- The external git configuration store, as the history of successful
set-invocations, newest first. -/
abbrev GState := List GitWrite

/-- The value stored at `scope`/`key`: the newest successful write. -/
def getScoped (st : GState) (scope key : String) : Option String :=
  (st.find? fun w => w.scope == scope && w.key == key).map GitWrite.value

/-- `git config --get <key>` run inside a repository consults local
configuration first and falls back to global: the effective value. -/
def getEffective (st : GState) (key : String) : Option String :=
  (getScoped st "--local" key).orElse fun _ => getScoped st "--global" key

/-- The `--global`/`--local` scope flag chosen at the top of
`set_git_config_in_dir`. -/
def scopeFlag (global : Bool) : String :=
  if global then "--global" else "--local"

/-- The `user.name` write of `set_git_config_in_dir`. -/
def nameWrite (profile : GitProfile) (global : Bool) : GitWrite :=
  ⟨scopeFlag global, "user.name", profile.name⟩

/-- The `user.email` write of `set_git_config_in_dir`. -/
def emailWrite (profile : GitProfile) (global : Bool) : GitWrite :=
  ⟨scopeFlag global, "user.email", profile.email⟩

/-- The `user.signingkey` write of `set_git_config_in_dir`. -/
def signWrite (global : Bool) (signing_key : String) : GitWrite :=
  ⟨scopeFlag global, "user.signingkey", signing_key⟩

/-- The result of one call to `set_git_config_in_dir`: its `Result<()>`,
the external configuration store afterwards, and the external
set-invocations attempted, in order. -/
structure ApplyResult where
  result : ApplyOutcome
  state : GState
  attempted : List GitWrite
deriving DecidableEq

/-- `set_git_config_in_dir` from `src/git.rs`: three sequential external
writes (name, email, signing key — the last only when present), each
checked against the exit status, bailing out on the first failure.  A
successful invocation records its write in the store; a failed or
unspawnable one leaves the store as it was. -/
def set_git_config_in_dir (exec : ExecOracle) (profile : GitProfile)
    (global : Bool) (st : GState) : ApplyResult :=
  let w1 := nameWrite profile global
  match exec w1 with
  | ExecResult.execError =>
    ⟨ApplyOutcome.error (GitError.execFailed "user.name"), st, [w1]⟩
  | ExecResult.fail stderr =>
    ⟨ApplyOutcome.error (GitError.writeFailed "user.name" stderr), st, [w1]⟩
  | ExecResult.ok =>
    let w2 := emailWrite profile global
    match exec w2 with
    | ExecResult.execError =>
      ⟨ApplyOutcome.error (GitError.execFailed "user.email"), w1 :: st, [w1, w2]⟩
    | ExecResult.fail stderr =>
      ⟨ApplyOutcome.error (GitError.writeFailed "user.email" stderr), w1 :: st, [w1, w2]⟩
    | ExecResult.ok =>
      match profile.signing_key with
      | none => ⟨ApplyOutcome.ok, w2 :: w1 :: st, [w1, w2]⟩
      | some signing_key =>
        let w3 := signWrite global signing_key
        match exec w3 with
        | ExecResult.execError =>
          ⟨ApplyOutcome.error (GitError.execFailed "user.signingkey"),
            w2 :: w1 :: st, [w1, w2, w3]⟩
        | ExecResult.fail stderr =>
          ⟨ApplyOutcome.error (GitError.writeFailed "user.signingkey" stderr),
            w2 :: w1 :: st, [w1, w2, w3]⟩
        | ExecResult.ok => ⟨ApplyOutcome.ok, w3 :: w2 :: w1 :: st, [w1, w2, w3]⟩

/-- The full list of writes `set_git_config_in_dir` issues when nothing
fails: name, email, and the signing key exactly when the profile has
one. -/
def plannedWrites (profile : GitProfile) (global : Bool) : List GitWrite :=
  [nameWrite profile global, emailWrite profile global] ++
    (match profile.signing_key with
     | none => []
     | some signing_key => [signWrite global signing_key])

/-- Error of `get_git_config_value_in_dir`: `bail!("Git config <key> not
found")` when the external get-invocation exits non-zero. -/
inductive ReadError where
  | notFound (key : String) : ReadError
deriving DecidableEq

/-- `get_git_config_value_in_dir` from `src/git.rs`: run `git config
--get <key>`, fail when the key is absent, and trim the stdout.  The
external collaborator is a lookup returning the stored value for a
present key (`none` = the invocation exits non-zero). -/
def get_git_config_value_in_dir (lookup : String → Option String)
    (key : String) : Res ReadError String :=
  match lookup key with
  | none => Res.error (ReadError.notFound key)
  | some v => Res.ok (rustTrim v)

/-- `get_current_git_config_in_dir` from `src/git.rs`: three independent
queries; missing name or email propagates with `?`, a missing signing
key is converted to `None` with `.ok()`. -/
def get_current_git_config_in_dir (lookup : String → Option String) :
    Res ReadError GitProfile :=
  match get_git_config_value_in_dir lookup "user.name" with
  | Res.error e => Res.error e
  | Res.ok name =>
    match get_git_config_value_in_dir lookup "user.email" with
    | Res.error e => Res.error e
    | Res.ok email =>
      Res.ok { name := name, email := email,
               signing_key :=
                 (get_git_config_value_in_dir lookup "user.signingkey").toOption }

/-- `Config` from `src/config.rs`; the `HashMap` is modelled as an
association list keyed by profile name. -/
structure Config where
  profiles : List (String × GitProfile)
  current_profile : Option String
deriving DecidableEq

/-- `Config::get_profile`. -/
def Config.get_profile (c : Config) (name : String) : Option GitProfile :=
  c.profiles.lookup name

/-- `Config::set_current_profile`. -/
def Config.set_current_profile (c : Config) (name : String) : Config :=
  { c with current_profile := some name }

/-- The informational messages printed by the command arms of
`src/main.rs` that the claims distinguish. -/
inductive Msg where
  | switched (name : String) : Msg
  | switchedLocally (name : String) : Msg
  | autoSwitched (name : String) : Msg
  | profileNotFound (name : String) : Msg
  | notInGitRepo : Msg
  | autoOnlyInRepos : Msg
  | dotfileProfileNotFound (name : String) : Msg
  | noDotfileFound : Msg
deriving DecidableEq

/-- How a command arm of `main` ends: `Ok(())` (zero exit) after
printing a message, or an error propagated with `?` (non-zero exit). -/
inductive CmdOutcome where
  | ok (msg : Msg) : CmdOutcome
  | err (e : GitError) : CmdOutcome
deriving DecidableEq

/-- Observable result of one command arm: its outcome, the in-memory
`Config` afterwards, whether `config.save()` was called (the persisted
store file changes only when it was), the external git configuration
store, and the external set-invocations attempted. -/
structure CmdResult where
  outcome : CmdOutcome
  config : Config
  saved : Bool
  gstate : GState
  writes : List GitWrite
deriving DecidableEq

/-- The `Commands::Switch` arm of `src/main.rs`: look the profile up,
apply it globally, and only on success set `current_profile` and save. -/
def switchCmd (exec : ExecOracle) (config : Config) (name : String)
    (st : GState) : CmdResult :=
  match config.get_profile name with
  | some profile =>
    let r := set_git_config_in_dir exec profile true st
    match r.result with
    | ApplyOutcome.ok =>
      { outcome := CmdOutcome.ok (Msg.switched name),
        config := config.set_current_profile name, saved := true,
        gstate := r.state, writes := r.attempted }
    | ApplyOutcome.error e =>
      { outcome := CmdOutcome.err e, config := config, saved := false,
        gstate := r.state, writes := r.attempted }
  | none =>
    { outcome := CmdOutcome.ok (Msg.profileNotFound name), config := config,
      saved := false, gstate := st, writes := [] }

/-- The `Commands::Local` arm of `src/main.rs`: bail out of non-repos,
look the profile up, and apply it at local scope; `current_profile` is
never touched and `config.save()` is never called. -/
def localCmd (fs : Fs) (cwd : Path) (exec : ExecOracle) (config : Config)
    (name : String) (st : GState) : CmdResult :=
  if (fs.gitRoot cwd).isSome = false then
    { outcome := CmdOutcome.ok Msg.notInGitRepo, config := config,
      saved := false, gstate := st, writes := [] }
  else
    match config.get_profile name with
    | some profile =>
      let r := set_git_config_in_dir exec profile false st
      match r.result with
      | ApplyOutcome.ok =>
        { outcome := CmdOutcome.ok (Msg.switchedLocally name), config := config,
          saved := false, gstate := r.state, writes := r.attempted }
      | ApplyOutcome.error e =>
        { outcome := CmdOutcome.err e, config := config, saved := false,
          gstate := r.state, writes := r.attempted }
    | none =>
      { outcome := CmdOutcome.ok (Msg.profileNotFound name), config := config,
        saved := false, gstate := st, writes := [] }

/-- The `Commands::Auto` arm of `src/main.rs`: bail out of non-repos,
resolve the marker's profile name (read failures already collapsed to
`None` by `get_dotfile_profile`), look it up in the store, and apply it
at local scope; `current_profile` is never touched and `config.save()`
is never called. -/
def autoCmd (fs : Fs) (cwd : Path) (exec : ExecOracle) (config : Config)
    (st : GState) : CmdResult :=
  if (fs.gitRoot cwd).isSome = false then
    { outcome := CmdOutcome.ok Msg.autoOnlyInRepos, config := config,
      saved := false, gstate := st, writes := [] }
  else
    match get_dotfile_profile_in_dir fs cwd with
    | some profile_name =>
      match config.get_profile profile_name with
      | some profile =>
        let r := set_git_config_in_dir exec profile false st
        match r.result with
        | ApplyOutcome.ok =>
          { outcome := CmdOutcome.ok (Msg.autoSwitched profile_name),
            config := config, saved := false, gstate := r.state,
            writes := r.attempted }
        | ApplyOutcome.error e =>
          { outcome := CmdOutcome.err e, config := config, saved := false,
            gstate := r.state, writes := r.attempted }
      | none =>
        { outcome := CmdOutcome.ok (Msg.dotfileProfileNotFound profile_name),
          config := config, saved := false, gstate := st, writes := [] }
    | none =>
      { outcome := CmdOutcome.ok Msg.noDotfileFound, config := config,
        saved := false, gstate := st, writes := [] }

/-! Helper lemmas about prefixes (ancestor-or-self on paths). -/

theorem pref_dropLast {α : Type} (l : List α) : l.dropLast <+: l := by
  rw [List.prefix_iff_eq_take, List.length_dropLast, List.dropLast_eq_take]

theorem pref_dropLast_of_ne {α : Type} {l₁ l₂ : List α}
    (h : l₁ <+: l₂) (hne : l₁ ≠ l₂) : l₁ <+: l₂.dropLast := by
  have hlt : l₁.length < l₂.length := by
    rcases Nat.lt_or_ge l₁.length l₂.length with h' | h'
    · exact h'
    · exact absurd (h.eq_of_length (Nat.le_antisymm h.length_le h')) hne
  rw [List.prefix_iff_eq_take] at h ⊢
  rw [List.dropLast_eq_take, List.take_take]
  have hmin : min l₁.length (l₂.length - 1) = l₁.length := by omega
  rw [hmin]
  exact h

theorem pref_antisymm {α : Type} {l₁ l₂ : List α}
    (h₁ : l₁ <+: l₂) (h₂ : l₂ <+: l₁) : l₁ = l₂ :=
  h₁.eq_of_length (Nat.le_antisymm h₁.length_le h₂.length_le)

/-- Any marker path returned by the upward-walk loop lies at a directory
that is an ancestor-or-self of the start directory and a
descendant-or-self of the git root (given that the root is an
ancestor-or-self of the start directory, which git guarantees). -/
theorem findDotfileWalk_sound (ex : Path → Bool) (gr : Path) :
    ∀ (fuel : Nat) (d p : Path), gr <+: d →
      findDotfileWalk ex gr fuel d = some p →
      ∃ E, p = E ++ [dotfileName] ∧ ex p = true ∧ E <+: d ∧ gr <+: E := by
  intro fuel
  induction fuel with
  | zero =>
    intro d p _ h
    exact absurd h (by simp [findDotfileWalk])
  | succ n ih =>
    intro d p hpre h
    rw [findDotfileWalk] at h
    by_cases hex : ex (d ++ [dotfileName]) = true
    · rw [if_pos hex] at h
      obtain rfl := Option.some.inj h
      exact ⟨d, rfl, hex, List.prefix_rfl, hpre⟩
    · rw [if_neg hex] at h
      by_cases hstop : d = gr ∨ d = []
      · rw [if_pos hstop] at h
        exact absurd h (by simp)
      · rw [if_neg hstop] at h
        have hgrne : gr ≠ d := fun hd => hstop (Or.inl hd.symm)
        have hpre' : gr <+: d.dropLast := pref_dropLast_of_ne hpre hgrne
        obtain ⟨E, h1, h2, h3, h4⟩ := ih d.dropLast p hpre' h
        exact ⟨E, h1, h2, h3.trans (pref_dropLast d), h4⟩

/-- The upward-walk loop returns the marker nearest to the start
directory: if any directory `E` between the root and the start holds a
marker, the loop succeeds with a marker at some `F` at least as close
to the start as `E`. -/
theorem findDotfileWalk_closest (ex : Path → Bool) (gr : Path) :
    ∀ (fuel : Nat) (d E : Path), d.length < fuel → gr <+: d →
      ex (E ++ [dotfileName]) = true → gr <+: E → E <+: d →
      ∃ F, findDotfileWalk ex gr fuel d = some (F ++ [dotfileName]) ∧
        ex (F ++ [dotfileName]) = true ∧ E <+: F ∧ F <+: d := by
  intro fuel
  induction fuel with
  | zero =>
    intro d E hlen
    exact absurd hlen (Nat.not_lt_zero _)
  | succ n ih =>
    intro d E hlen hgr hex hgrE hEd
    rw [findDotfileWalk]
    by_cases hexd : ex (d ++ [dotfileName]) = true
    · rw [if_pos hexd]
      exact ⟨d, rfl, hexd, hEd, List.prefix_rfl⟩
    · have hEne : E ≠ d := by
        intro hh
        subst hh
        exact hexd hex
      have hEd' : E <+: d.dropLast := pref_dropLast_of_ne hEd hEne
      have hdnil : d ≠ [] := by
        intro hd
        subst hd
        exact hEne (List.prefix_nil.mp hEd)
      have hdgr : d ≠ gr := by
        intro hd
        subst hd
        exact hEne (pref_antisymm hEd hgrE)
      have hlen' : d.dropLast.length < n := by
        have h0 : 0 < d.length := List.length_pos.mpr hdnil
        rw [List.length_dropLast]
        omega
      rw [if_neg hexd, if_neg (by tauto : ¬(d = gr ∨ d = []))]
      obtain ⟨F, h1, h2, h3, h4⟩ :=
        ih d.dropLast E hlen' (hgrE.trans hEd') hex hgrE hEd'
      exact ⟨F, h1, h2, h3, h4.trans (pref_dropLast d)⟩

/-- C1: boundary safety of the marker search.  For a start directory `D`
inside a repository with root `R` (so `R` is an ancestor-or-self of
`D`), `find_dotfile_in_dir` returns either nothing or the path of an
existing marker file whose directory is an ancestor-or-self of `D` and
a descendant-or-self of `R`; it never returns a path outside `R`. -/
theorem find_dotfile_boundary_safe (fs : Fs) (D R : Path)
    (hroot : fs.gitRoot D = some R) (hpre : R <+: D) :
    ∀ p, find_dotfile_in_dir fs D = some p →
      ∃ E, p = E ++ [dotfileName] ∧ fs.pathExists p = true ∧
        E <+: D ∧ R <+: E := by
  intro p h
  simp only [find_dotfile_in_dir] at h
  by_cases hfast :
      (fs.pathExists (D ++ [dotfileName]) && (fs.gitRoot D).isSome) = true
  · rw [if_pos hfast] at h
    obtain rfl := Option.some.inj h
    exact ⟨D, rfl, (Bool.and_eq_true _ _ |>.mp hfast).1, List.prefix_rfl, hpre⟩
  · rw [if_neg hfast, hroot] at h
    exact findDotfileWalk_sound fs.pathExists R (D.length + 1) D p hpre h

/-- C1 witness: a concrete repository rooted at the filesystem root with
a marker in directory `a`; searching from `a/b` returns that marker,
whose directory is between the root and the start directory. -/
theorem find_dotfile_boundary_safe_witness :
    ∃ E : Path, (["a", dotfileName] : Path) = E ++ [dotfileName] ∧
      Fs.pathExists
        ⟨fun q => q == ["a", dotfileName], fun _ => some ([] : Path), fun _ => none⟩
        ["a", dotfileName] = true ∧
      E <+: ["a", "b"] ∧ ([] : Path) <+: E :=
  find_dotfile_boundary_safe
    ⟨fun q => q == ["a", dotfileName], fun _ => some ([] : Path), fun _ => none⟩
    ["a", "b"] [] rfl ⟨["a", "b"], rfl⟩ ["a", dotfileName] (by decide)

/-- C2: closest-wins tie-break.  If any directory `E` between the
repository root `R` and the start directory `D` holds a marker, the
search succeeds, and the marker it returns sits at a directory `F` at
least as close to `D` as `E` is (every competing marker is an
ancestor-or-self of the winner).  In particular, with markers at both
`R` and `R/a/b`, `find(R/a/b/c)` returns the one at `R/a/b`. -/
theorem find_dotfile_closest (fs : Fs) (D R E : Path)
    (hroot : fs.gitRoot D = some R) (hpre : R <+: D)
    (hex : fs.pathExists (E ++ [dotfileName]) = true)
    (hRE : R <+: E) (hED : E <+: D) :
    ∃ F, find_dotfile_in_dir fs D = some (F ++ [dotfileName]) ∧
      fs.pathExists (F ++ [dotfileName]) = true ∧ E <+: F ∧ F <+: D := by
  simp only [find_dotfile_in_dir]
  by_cases hfast :
      (fs.pathExists (D ++ [dotfileName]) && (fs.gitRoot D).isSome) = true
  · rw [if_pos hfast]
    exact ⟨D, rfl, (Bool.and_eq_true _ _ |>.mp hfast).1, hED, List.prefix_rfl⟩
  · rw [if_neg hfast, hroot]
    exact findDotfileWalk_closest fs.pathExists R (D.length + 1) D E
      (Nat.lt_succ_self _) hpre hex hRE hED

/-- C2 witness: markers at both the repository root `R = /` and at
`R/a/b`; searching from `R/a/b/c` returns a marker whose directory
extends `a/b` — i.e. the marker at `R/a/b`, not the one at `R`. -/
theorem find_dotfile_closest_witness :
    ∃ F, find_dotfile_in_dir
        ⟨fun q => q == [dotfileName] || q == ["a", "b", dotfileName],
         fun _ => some ([] : Path), fun _ => none⟩
        ["a", "b", "c"] = some (F ++ [dotfileName]) ∧
      Fs.pathExists
        ⟨fun q => q == [dotfileName] || q == ["a", "b", dotfileName],
         fun _ => some ([] : Path), fun _ => none⟩
        (F ++ [dotfileName]) = true ∧
      (["a", "b"] : Path) <+: F ∧ F <+: ["a", "b", "c"] :=
  find_dotfile_closest
    ⟨fun q => q == [dotfileName] || q == ["a", "b", dotfileName],
     fun _ => some ([] : Path), fun _ => none⟩
    ["a", "b", "c"] [] ["a", "b"] rfl ⟨["a", "b", "c"], rfl⟩ (by decide)
    ⟨["a", "b"], rfl⟩ ⟨["c"], rfl⟩

/-- Outside any repository the search is suppressed (shared helper). -/
theorem find_eq_none_of_no_repo (fs : Fs) (D : Path)
    (hroot : fs.gitRoot D = none) : find_dotfile_in_dir fs D = none := by
  simp [find_dotfile_in_dir, hroot]

/-- C8: outside-repo suppression.  When the start directory is outside
any repository (`get_git_repo_info` reports none), the search returns
nothing — even when a marker file physically exists at the start
directory. -/
theorem find_dotfile_outside_repo (fs : Fs) (D : Path)
    (hroot : fs.gitRoot D = none) : find_dotfile_in_dir fs D = none :=
  find_eq_none_of_no_repo fs D hroot

/-- C8 witness: a marker physically present at the start directory
itself is suppressed when no repository contains that directory. -/
theorem find_dotfile_outside_repo_witness :
    find_dotfile_in_dir
      ⟨fun q => q == [dotfileName], fun _ => none, fun _ => none⟩ [] = none :=
  find_dotfile_outside_repo
    ⟨fun q => q == [dotfileName], fun _ => none, fun _ => none⟩ [] rfl

/-- C9: marker parsing.  For readable content, the parse returns the
content trimmed of leading and trailing whitespace, and fails with the
marker-empty error exactly when the trimmed result is empty. -/
theorem read_profile_trim_empty :
    ∀ c : String,
      (rustTrim c ≠ "" →
        read_profile_from_dotfile (some c) = Res.ok (rustTrim c))
    ∧ (rustTrim c = "" →
        read_profile_from_dotfile (some c) = Res.error DotfileError.markerEmpty)
    ∧ (∀ s, read_profile_from_dotfile (some c) = Res.ok s → s = rustTrim c) := by
  intro c
  refine ⟨fun h => ?_, fun h => ?_, fun s h => ?_⟩
  · simp [read_profile_from_dotfile, h]
  · simp [read_profile_from_dotfile, h]
  · simp only [read_profile_from_dotfile] at h
    by_cases hc : rustTrim c = ""
    · rw [if_pos hc] at h
      exact absurd h (by simp)
    · rw [if_neg hc] at h
      exact (Res.ok.inj h).symm

/-- C9 witness: content `"  work  \n"` parses to `"work"`, and
whitespace-only content `"   \n\t"` fails with the marker-empty
error. -/
theorem read_profile_trim_empty_witness :
    read_profile_from_dotfile (some "  work  \n") = Res.ok "work" ∧
    read_profile_from_dotfile (some "   \n\t") =
      Res.error DotfileError.markerEmpty := by
  constructor
  · have h := (read_profile_trim_empty "  work  \n").1 (by decide)
    rw [h]
    decide
  · exact (read_profile_trim_empty "   \n\t").2.1 (by decide)

/-- C3: ordered, fail-fast application.  The attempted external writes
are always an in-order prefix of the plan (name, then email, then the
signing key); a signing-key write is never attempted when the profile
has no key; on success the whole plan was attempted; a failing name
write aborts with an error naming `user.name` and carrying the tool's
stderr, leaving the store untouched; a name success followed by an
email failure aborts with an error naming `user.email` and carrying the
stderr, with the new name in place, the old email untouched, and the
signing-key write never attempted. -/
theorem set_git_config_ordered_failfast
    (exec : ExecOracle) (profile : GitProfile) (global : Bool) (st : GState) :
    ((set_git_config_in_dir exec profile global st).attempted <+:
      plannedWrites profile global)
  ∧ (profile.signing_key = none →
      ∀ w ∈ (set_git_config_in_dir exec profile global st).attempted,
        w.key ≠ "user.signingkey")
  ∧ ((set_git_config_in_dir exec profile global st).result = ApplyOutcome.ok →
      (set_git_config_in_dir exec profile global st).attempted =
        plannedWrites profile global)
  ∧ (∀ stderr, exec (nameWrite profile global) = ExecResult.fail stderr →
      set_git_config_in_dir exec profile global st =
        ⟨ApplyOutcome.error (GitError.writeFailed "user.name" stderr), st,
         [nameWrite profile global]⟩)
  ∧ (∀ stderr, exec (nameWrite profile global) = ExecResult.ok →
      exec (emailWrite profile global) = ExecResult.fail stderr →
      set_git_config_in_dir exec profile global st =
        ⟨ApplyOutcome.error (GitError.writeFailed "user.email" stderr),
         nameWrite profile global :: st,
         [nameWrite profile global, emailWrite profile global]⟩) := by
  refine ⟨?_, ?_, ?_, ?_, ?_⟩
  · cases h1 : exec (nameWrite profile global) with
    | ok =>
      cases h2 : exec (emailWrite profile global) with
      | ok =>
        cases hsk : profile.signing_key with
        | none => simp [set_git_config_in_dir, h1, h2, hsk, plannedWrites]
        | some k =>
          cases h3 : exec (signWrite global k) <;>
            simp [set_git_config_in_dir, h1, h2, hsk, h3, plannedWrites]
      | fail stderr =>
        simp only [set_git_config_in_dir, h1, h2, plannedWrites]
        exact ⟨_, rfl⟩
      | execError =>
        simp only [set_git_config_in_dir, h1, h2, plannedWrites]
        exact ⟨_, rfl⟩
    | fail stderr =>
      simp only [set_git_config_in_dir, h1, plannedWrites]
      exact ⟨_, rfl⟩
    | execError =>
      simp only [set_git_config_in_dir, h1, plannedWrites]
      exact ⟨_, rfl⟩
  · intro hsk w hw
    cases h1 : exec (nameWrite profile global) with
    | ok =>
      cases h2 : exec (emailWrite profile global) with
      | ok =>
        simp only [set_git_config_in_dir, h1, h2, hsk] at hw
        fin_cases hw <;> simp [nameWrite, emailWrite]
      | fail stderr =>
        simp only [set_git_config_in_dir, h1, h2] at hw
        fin_cases hw <;> simp [nameWrite, emailWrite]
      | execError =>
        simp only [set_git_config_in_dir, h1, h2] at hw
        fin_cases hw <;> simp [nameWrite, emailWrite]
    | fail stderr =>
      simp only [set_git_config_in_dir, h1] at hw
      fin_cases hw <;> simp [nameWrite, emailWrite]
    | execError =>
      simp only [set_git_config_in_dir, h1] at hw
      fin_cases hw <;> simp [nameWrite, emailWrite]
  · intro hok
    cases h1 : exec (nameWrite profile global) with
    | ok =>
      cases h2 : exec (emailWrite profile global) with
      | ok =>
        cases hsk : profile.signing_key with
        | none => simp [set_git_config_in_dir, h1, h2, hsk, plannedWrites]
        | some k =>
          cases h3 : exec (signWrite global k) <;>
            simp_all [set_git_config_in_dir, h1, h2, hsk, plannedWrites]
      | fail stderr => simp [set_git_config_in_dir, h1, h2] at hok
      | execError => simp [set_git_config_in_dir, h1, h2] at hok
    | fail stderr => simp [set_git_config_in_dir, h1] at hok
    | execError => simp [set_git_config_in_dir, h1] at hok
  · intro stderr h1
    simp [set_git_config_in_dir, h1]
  · intro stderr h1 h2
    simp [set_git_config_in_dir, h1, h2]

/-- C3 witness: with an executor that rejects exactly the email write,
applying a keyless profile over a store holding an old email yields the
email-field error carrying the stderr, a store with the new name in
front and the old email untouched, and exactly the name and email
writes attempted. -/
theorem set_git_config_ordered_failfast_witness :
    set_git_config_in_dir
        (fun w => if w.key = "user.email" then ExecResult.fail "boom"
                  else ExecResult.ok)
        ⟨"A", "a@x", none⟩ false [⟨"--local", "user.email", "old"⟩] =
      ⟨ApplyOutcome.error (GitError.writeFailed "user.email" "boom"),
       nameWrite ⟨"A", "a@x", none⟩ false :: [⟨"--local", "user.email", "old"⟩],
       [nameWrite ⟨"A", "a@x", none⟩ false, emailWrite ⟨"A", "a@x", none⟩ false]⟩ :=
  (set_git_config_ordered_failfast
      (fun w => if w.key = "user.email" then ExecResult.fail "boom"
                else ExecResult.ok)
      ⟨"A", "a@x", none⟩ false
      [⟨"--local", "user.email", "old"⟩]).2.2.2.2 "boom" (by decide) (by decide)

/-- Reading the current configuration when name and email are present:
both are returned trimmed, and the signing key is whatever the lookup
yields, trimmed, with absence mapped to `none`. -/
theorem get_config_eval (lookup : String → Option String) (n e : String)
    (hn : lookup "user.name" = some n) (he : lookup "user.email" = some e) :
    get_current_git_config_in_dir lookup =
      Res.ok ⟨rustTrim n, rustTrim e, (lookup "user.signingkey").map rustTrim⟩ := by
  simp only [get_current_git_config_in_dir, get_git_config_value_in_dir, hn, he]
  cases hs : lookup "user.signingkey" <;> simp [Res.toOption, hs]

/-- C5: `read` queries name, email, and signing key independently
against the configuration visible at the given scope; a missing name or
a missing email is a hard failure naming the missing key, while a
missing signing key is not an error and is mapped to a profile with no
signing key. -/
theorem get_config_reads_independent (lookup : String → Option String) :
    (lookup "user.name" = none →
      get_current_git_config_in_dir lookup =
        Res.error (ReadError.notFound "user.name"))
  ∧ (∀ n, lookup "user.name" = some n → lookup "user.email" = none →
      get_current_git_config_in_dir lookup =
        Res.error (ReadError.notFound "user.email"))
  ∧ (∀ n e, lookup "user.name" = some n → lookup "user.email" = some e →
      get_current_git_config_in_dir lookup =
        Res.ok ⟨rustTrim n, rustTrim e, (lookup "user.signingkey").map rustTrim⟩) := by
  refine ⟨fun h => ?_, fun n hn he => ?_, fun n e hn he => ?_⟩
  · simp [get_current_git_config_in_dir, get_git_config_value_in_dir, h]
  · simp [get_current_git_config_in_dir, get_git_config_value_in_dir, hn, he]
  · exact get_config_eval lookup n e hn he

/-- C5 witness: a configuration with name and email but no signing key
reads back as a complete profile with no signing key and no error. -/
theorem get_config_reads_independent_witness :
    get_current_git_config_in_dir
        (fun k => if k = "user.name" then some "N"
                  else if k = "user.email" then some "e@x" else none) =
      Res.ok ⟨"N", "e@x", none⟩ := by
  have h := (get_config_reads_independent
      (fun k => if k = "user.name" then some "N"
                else if k = "user.email" then some "e@x" else none)).2.2
      "N" "e@x" (by decide) (by decide)
  rw [h]
  decide

/-- C4 counterexample: the round-trip claim fails as stated.
First input: the keyless profile `{Alice}` applied at local scope over
a configuration already carrying a global signing key `OLD` — the apply
succeeds, yet the read-back reports signing key `OLD` although the
profile had none (the code never unsets `user.signingkey`).
Second input: the profile named `" Bob "` applied over an empty
configuration reads back as `"Bob"`, not identically, because the read
path trims values. -/
theorem round_trip_counterexample :
    ((set_git_config_in_dir (fun _ => ExecResult.ok)
        ⟨"Alice", "alice@example.com", none⟩ false
        [⟨"--global", "user.signingkey", "OLD"⟩]).result = ApplyOutcome.ok ∧
     get_current_git_config_in_dir
        (getEffective (set_git_config_in_dir (fun _ => ExecResult.ok)
          ⟨"Alice", "alice@example.com", none⟩ false
          [⟨"--global", "user.signingkey", "OLD"⟩]).state) =
        Res.ok ⟨"Alice", "alice@example.com", some "OLD"⟩ ∧
     (⟨"Alice", "alice@example.com", none⟩ : GitProfile).signing_key = none)
  ∧ (get_current_git_config_in_dir
        (getEffective (set_git_config_in_dir (fun _ => ExecResult.ok)
          ⟨" Bob ", "bob@example.com", none⟩ false []).state) =
        Res.ok ⟨"Bob", "bob@example.com", none⟩ ∧
     (" Bob " : String) ≠ "Bob") := by
  refine ⟨⟨?_, ?_, rfl⟩, ?_, ?_⟩ <;> decide

/-- C4 (amended): round-trip holds for every profile whose fields carry
no surrounding whitespace, whenever the three writes succeed and — when
the profile has no signing key — no signing key is already visible to
the read; then applying at local scope and reading back yields exactly
the original profile (identical name and email, and a signing key iff
the profile had one). -/
theorem apply_then_read_round_trip (exec : ExecOracle) (profile : GitProfile)
    (st : GState)
    (hname : rustTrim profile.name = profile.name)
    (hemail : rustTrim profile.email = profile.email)
    (hkey : ∀ k, profile.signing_key = some k → rustTrim k = k)
    (hfresh : profile.signing_key = none →
      getEffective st "user.signingkey" = none)
    (hexn : exec (nameWrite profile false) = ExecResult.ok)
    (hexe : exec (emailWrite profile false) = ExecResult.ok)
    (hexs : ∀ k, profile.signing_key = some k →
      exec (signWrite false k) = ExecResult.ok) :
    get_current_git_config_in_dir
        (getEffective (set_git_config_in_dir exec profile false st).state) =
      Res.ok profile := by
  cases hsk : profile.signing_key with
  | none =>
    have hstate : (set_git_config_in_dir exec profile false st).state =
        emailWrite profile false :: nameWrite profile false :: st := by
      simp [set_git_config_in_dir, hexn, hexe, hsk]
    rw [hstate]
    rw [get_config_eval
      (getEffective (emailWrite profile false :: nameWrite profile false :: st))
      profile.name profile.email rfl rfl]
    have hkey0 : getEffective
        (emailWrite profile false :: nameWrite profile false :: st)
        "user.signingkey" = none := hfresh hsk
    rw [hname, hemail, hkey0]
    simp only [Option.map_none']
    rw [← hsk]
  | some k =>
    have hstate : (set_git_config_in_dir exec profile false st).state =
        signWrite false k :: emailWrite profile false ::
          nameWrite profile false :: st := by
      simp [set_git_config_in_dir, hexn, hexe, hsk, hexs k hsk]
    rw [hstate]
    rw [get_config_eval
      (getEffective (signWrite false k :: emailWrite profile false ::
        nameWrite profile false :: st))
      profile.name profile.email rfl rfl]
    have hkeyv : getEffective
        (signWrite false k :: emailWrite profile false ::
          nameWrite profile false :: st)
        "user.signingkey" = some k := rfl
    rw [hname, hemail, hkeyv]
    simp only [Option.map_some']
    rw [hkey k hsk, ← hsk]

/-- C4 witness: a trim-stable profile with a signing key, applied over
an empty configuration with an all-succeeding executor, reads back
identically. -/
theorem apply_then_read_round_trip_witness :
    get_current_git_config_in_dir
        (getEffective (set_git_config_in_dir (fun _ => ExecResult.ok)
          ⟨"Carol", "c@x", some "KEY1"⟩ false []).state) =
      Res.ok ⟨"Carol", "c@x", some "KEY1"⟩ :=
  apply_then_read_round_trip (fun _ => ExecResult.ok)
    ⟨"Carol", "c@x", some "KEY1"⟩ []
    (by decide) (by decide)
    (fun k hk => by
      obtain rfl : "KEY1" = k := Option.some.inj hk
      decide)
    (fun h => Option.noConfusion h)
    rfl rfl (fun _ _ => rfl)

/-- C6: error atomicity of `switch` on an unknown profile key — no
external write is attempted, the outcome is the benign zero-exit
profile-not-found message, the in-memory configuration (including
`current_profile`) is unchanged, and `config.save()` is never called,
so the persisted store file is untouched. -/
theorem switch_profile_not_found (exec : ExecOracle) (config : Config)
    (name : String) (st : GState) (h : config.get_profile name = none) :
    switchCmd exec config name st =
      ⟨CmdOutcome.ok (Msg.profileNotFound name), config, false, st, []⟩ := by
  simp [switchCmd, h]

/-- C6 witness: switching to `"ghost"` against a store holding only
`"work"` is a benign no-op. -/
theorem switch_profile_not_found_witness :
    switchCmd (fun _ => ExecResult.ok)
        ⟨[("work", ⟨"W", "w@x", none⟩)], none⟩ "ghost" [] =
      ⟨CmdOutcome.ok (Msg.profileNotFound "ghost"),
       ⟨[("work", ⟨"W", "w@x", none⟩)], none⟩, false, [], []⟩ :=
  switch_profile_not_found (fun _ => ExecResult.ok)
    ⟨[("work", ⟨"W", "w@x", none⟩)], none⟩ "ghost" [] (by decide)

/-- C7: frame property of `local` and `auto`.  Whatever the filesystem,
store, executor, and outcome (not-a-repository, profile-not-found,
apply failure, or success), neither command changes the in-memory
configuration — in particular `current_profile` — and neither ever
calls `config.save()`. -/
theorem local_auto_frame (fs : Fs) (cwd : Path) (exec : ExecOracle)
    (config : Config) (name : String) (st : GState) :
    ((localCmd fs cwd exec config name st).config = config)
  ∧ ((localCmd fs cwd exec config name st).saved = false)
  ∧ ((autoCmd fs cwd exec config st).config = config)
  ∧ ((autoCmd fs cwd exec config st).saved = false) := by
  refine ⟨?_, ?_, ?_, ?_⟩ <;>
    · simp only [localCmd, autoCmd]
      repeat' split
      all_goals rfl

/-- `find_dotfile_in_dir` can only succeed inside a repository. -/
theorem gitRoot_isSome_of_find (fs : Fs) (D p : Path)
    (h : find_dotfile_in_dir fs D = some p) :
    (fs.gitRoot D).isSome = true := by
  cases hg : fs.gitRoot D with
  | none =>
    rw [find_eq_none_of_no_repo fs D hg] at h
    exact Option.noConfusion h
  | some r => rfl

/-- C10: inside a repository, a marker that is found but fails to read
(unreadable, empty, or whitespace-only) is not propagated as a hard
failure by `auto`: the command behaves exactly like the no-marker case —
zero external writes, no configuration change, no save, and the benign
zero-exit no-marker message. -/
theorem auto_marker_unreadable_noop (fs : Fs) (cwd : Path)
    (exec : ExecOracle) (config : Config) (st : GState) (p : Path)
    (e : DotfileError)
    (hfind : find_dotfile_in_dir fs cwd = some p)
    (hread : read_profile_from_dotfile (fs.content p) = Res.error e) :
    autoCmd fs cwd exec config st =
      ⟨CmdOutcome.ok Msg.noDotfileFound, config, false, st, []⟩ := by
  have hroot := gitRoot_isSome_of_find fs cwd p hfind
  have hprof : get_dotfile_profile_in_dir fs cwd = none := by
    simp [get_dotfile_profile_in_dir, hfind, hread, Res.toOption]
  simp [autoCmd, hroot, hprof]

/-- C10 witness: a repository rooted at the filesystem root with a
whitespace-only marker at the root — `auto` finds the marker, its read
fails with the marker-empty error, and the command is the benign
no-marker no-op. -/
theorem auto_marker_unreadable_noop_witness :
    autoCmd
        ⟨fun q => q == [dotfileName], fun _ => some ([] : Path),
         fun _ => some "  \n"⟩
        [] (fun _ => ExecResult.ok) ⟨[], none⟩ [] =
      ⟨CmdOutcome.ok Msg.noDotfileFound, ⟨[], none⟩, false, [], []⟩ :=
  auto_marker_unreadable_noop
    ⟨fun q => q == [dotfileName], fun _ => some ([] : Path),
     fun _ => some "  \n"⟩
    [] (fun _ => ExecResult.ok) ⟨[], none⟩ [] [dotfileName]
    DotfileError.markerEmpty (by decide) (by decide)

end GSwitch
